import Mathlib

/-!
A shallow embedding of the task-tracking tool's core — the record model
(`Task`, serialization) and the task store (`TaskManager`: CRUD, filtering,
sorting, persistence) — together with theorems about its operations.

Ambient effects are passed explicitly: `now` stands for
`datetime.datetime.now()`, `fresh` for `str(uuid.uuid4())`.  Timestamps are
modelled as natural numbers; `isoformat`/`fromisoformat` model the standard
library's ISO-8601 rendering and parsing as an injective encoding with a
recognizer that rejects malformed strings.  Exceptions are modelled by
`Except PyErr`.
-/

namespace Ttt

/-- Priority levels of a task, `class Priority(Enum)`. -/
inductive Priority where
  | LOW
  | MEDIUM
  | HIGH
  | CRITICAL
deriving DecidableEq

/-- The numeric `value` of each `Priority` member. -/
def Priority.value : Priority → Nat
  | .LOW => 1
  | .MEDIUM => 2
  | .HIGH => 3
  | .CRITICAL => 4

/-- The `name` of each `Priority` member. -/
def Priority.name : Priority → String
  | .LOW => "LOW"
  | .MEDIUM => "MEDIUM"
  | .HIGH => "HIGH"
  | .CRITICAL => "CRITICAL"

/-- Index lookup on the enumeration: exact name match, `none` models
the `KeyError` that the lookup raises on an unrecognized name. -/
def Priority.ofName (s : String) : Option Priority :=
  if s = "LOW" then some .LOW
  else if s = "MEDIUM" then some .MEDIUM
  else if s = "HIGH" then some .HIGH
  else if s = "CRITICAL" then some .CRITICAL
  else none

/-- Status values of a task, `class Status(Enum)`. -/
inductive Status where
  | NOT_STARTED
  | IN_PROGRESS
  | BLOCKED
  | COMPLETED
deriving DecidableEq

/-- The `name` of each `Status` member. -/
def Status.name : Status → String
  | .NOT_STARTED => "NOT_STARTED"
  | .IN_PROGRESS => "IN_PROGRESS"
  | .BLOCKED => "BLOCKED"
  | .COMPLETED => "COMPLETED"

/-- Index lookup on the `Status` enumeration by exact name. -/
def Status.ofName (s : String) : Option Status :=
  if s = "NOT_STARTED" then some .NOT_STARTED
  else if s = "IN_PROGRESS" then some .IN_PROGRESS
  else if s = "BLOCKED" then some .BLOCKED
  else if s = "COMPLETED" then some .COMPLETED
  else none

/-- Timestamps (`datetime.datetime`) modelled as natural numbers. -/
abbrev Timestamp := Nat

/-- Model of `datetime.isoformat`: an injective rendering to a string. -/
def isoformat (t : Timestamp) : String := toString t

/-- Model of `datetime.datetime.fromisoformat`: inverts `isoformat` and
rejects (raises `ValueError`, here `none`) any string that is not a
well-formed rendering. -/
def fromisoformat (s : String) : Option Timestamp :=
  if s.length ≠ 0 ∧ s.data.all Char.isDigit then
    some (s.data.foldl (fun n c => n * 10 + (c.toNat - 48)) 0)
  else none

/-- Equality of `Except` results is decidable when it is on both sides. -/
instance {ε α : Type} [DecidableEq ε] [DecidableEq α] : DecidableEq (Except ε α) :=
  fun x y =>
    match x, y with
    | .ok a, .ok b =>
      if h : a = b then isTrue (by rw [h]) else isFalse (fun hh => h (Except.ok.inj hh))
    | .error e, .error f =>
      if h : e = f then isTrue (by rw [h]) else isFalse (fun hh => h (Except.error.inj hh))
    | .ok _, .error _ => isFalse (fun hh => Except.noConfusion hh)
    | .error _, .ok _ => isFalse (fun hh => Except.noConfusion hh)

/-- The exceptions the embedded code can raise. -/
inductive PyErr where
  | keyError (key : String)
  | valueError (msg : String)
  | typeError (arg : String)
  | jsonDecodeError
deriving DecidableEq

/-- One task record, `class Task`. -/
structure Task where
  id : String
  title : String
  description : String
  priority : Priority
  due_date : Option Timestamp
  status : Status
  tags : List String
  created_at : Timestamp
  updated_at : Timestamp
deriving DecidableEq

/-- The constructor of `Task`.  `task_id or str(uuid.uuid4())` uses Python
truthiness, so an absent or empty-string `task_id` is replaced by the fresh
uuid; `tags or []` likewise yields `[]` for an absent (or empty) tags value.
`created_at` and `updated_at` are both stamped with `now`. -/
def Task.init (title : String) (description : String) (priority : Priority)
    (due_date : Option Timestamp) (status : Status) (tags : Option (List String))
    (task_id : Option String) (fresh : String) (now : Timestamp) : Task :=
  { id := match task_id with
      | some s => if s = "" then fresh else s
      | none => fresh
    title := title
    description := description
    priority := priority
    due_date := due_date
    status := status
    tags := tags.getD []
    created_at := now
    updated_at := now }

/-- Model of `Task.update`: every argument that is not `None` overwrites the
corresponding attribute; `updated_at` is set to `now` unconditionally at the
end, even when every argument is absent. -/
def Task.update (t : Task) (title : Option String) (description : Option String)
    (priority : Option Priority) (due_date : Option Timestamp)
    (status : Option Status) (tags : Option (List String)) (now : Timestamp) : Task :=
  { t with
    title := title.getD t.title
    description := description.getD t.description
    priority := priority.getD t.priority
    due_date := match due_date with
      | some d => some d
      | none => t.due_date
    status := status.getD t.status
    tags := tags.getD t.tags
    updated_at := now }

/-- A parsed JSON object for one persisted task: every key may be absent, and
`due_date` may additionally be present with value `null` (`some none`).  The
model restricts the values to the types the program itself writes. -/
structure RawRecord where
  id : Option String := none
  title : Option String := none
  description : Option String := none
  priority : Option String := none
  due_date : Option (Option String) := none
  status : Option String := none
  tags : Option (List String) := none
  created_at : Option String := none
  updated_at : Option String := none
deriving DecidableEq

/-- Model of `Task.to_dict`: the flat serialized form of a task.  `due_date` is the
ISO rendering when present and `null` otherwise (a datetime is always
truthy). -/
def Task.to_dict (t : Task) : RawRecord :=
  { id := some t.id
    title := some t.title
    description := some t.description
    priority := some t.priority.name
    due_date := some (t.due_date.map isoformat)
    status := some t.status.name
    tags := some t.tags
    created_at := some (isoformat t.created_at)
    updated_at := some (isoformat t.updated_at) }

/-- Subscripting `data[key]`: raises `KeyError key` when the key is absent.
Also models the enumeration index lookup, which raises `KeyError` on an
unrecognized name. -/
def getItem (v : Option α) (key : String) : Except PyErr α :=
  match v with
  | some a => .ok a
  | none => .error (.keyError key)

/-- Model of `Task.from_dict`.  `data.get("due_date")` is truthy only for a non-empty
string, which is then parsed, raising `ValueError` when malformed; required
keys raise `KeyError` when absent; the stored `created_at`/`updated_at` keys
are never read — the constructor stamps both with `now`. -/
def Task.from_dict (data : RawRecord) (fresh : String) (now : Timestamp) :
    Except PyErr Task := do
  let due_date : Option Timestamp ←
    match data.due_date with
    | some (some s) =>
      if s = "" then pure none
      else
        match fromisoformat s with
        | some d => pure (some d)
        | none => Except.error (.valueError s)
    | _ => pure none
  let title ← getItem data.title "title"
  let description ← getItem data.description "description"
  let pname ← getItem data.priority "priority"
  let priority ← getItem (Priority.ofName pname) pname
  let sname ← getItem data.status "status"
  let status ← getItem (Status.ofName sname) sname
  let tags ← getItem data.tags "tags"
  let id ← getItem data.id "id"
  pure (Task.init title description priority due_date status (some tags)
    (some id) fresh now)

/-- The task store, `class TaskManager`: the insertion-ordered mapping from id
to task, plus a count of the persistence writes performed by `save_tasks`. -/
structure TaskManager where
  tasks : List (String × Task)
  writes : Nat
deriving DecidableEq

/-- Function `save_tasks` rewrites the whole backing file; the model records that a
persistence write happened. -/
def save_tasks (m : TaskManager) : TaskManager :=
  { m with writes := m.writes + 1 }

/-- Model of `get_task`: `self.tasks.get(task_id)` — pure lookup. -/
def get_task (m : TaskManager) (task_id : String) : Option Task :=
  (m.tasks.find? (fun p => p.1 == task_id)).map (fun p => p.2)

/-- The keyword arguments a caller can pass to `update_task`.  `priority` and
`status` arrive either as enum members or as strings; `due_date` additionally
distinguishes key-absent (`none`) from key-present-with-value-`None`
(`some none`).  `extra` lists the keyword names that are not parameters of
`Task.update`. -/
structure UpdateKwargs where
  title : Option String := none
  description : Option String := none
  priority : Option (Priority ⊕ String) := none
  status : Option (Status ⊕ String) := none
  due_date : Option (Option (Timestamp ⊕ String)) := none
  tags : Option (List String) := none
  extra : List String := []
deriving DecidableEq

/-- The coercion step for `priority` in `update_task`: a string value is
replaced by the enumeration member of that exact name, raising `KeyError` on
an unrecognized name. -/
def convPriority : Option (Priority ⊕ String) → Except PyErr (Option Priority)
  | none => .ok none
  | some (.inl p) => .ok (some p)
  | some (.inr s) =>
    (Priority.ofName s).elim (.error (.keyError s)) (fun p => .ok (some p))

/-- The coercion step for `status` in `update_task`. -/
def convStatus : Option (Status ⊕ String) → Except PyErr (Option Status)
  | none => .ok none
  | some (.inl q) => .ok (some q)
  | some (.inr s) =>
    (Status.ofName s).elim (.error (.keyError s)) (fun q => .ok (some q))

/-- The coercion step for `due_date` in `update_task`: only a string value is
parsed (raising `ValueError` when malformed); an explicit `None` passes
through unconverted. -/
def convDueDate :
    Option (Option (Timestamp ⊕ String)) → Except PyErr (Option (Option Timestamp))
  | none => .ok none
  | some none => .ok (some none)
  | some (some (.inl d)) => .ok (some (some d))
  | some (some (.inr s)) =>
    (fromisoformat s).elim (.error (.valueError s)) (fun d => .ok (some (some d)))

/-- Model of `update_task`.  Returns the value returned or exception raised, paired
with the manager state when control returns to the caller.  A missing id
returns `False` with no side effect; then the string coercions run in source
order; then the keyword call `task.update(**kwargs)` raises `TypeError` when
an unrecognized keyword is present; otherwise the task is updated in place
(the passed `due_date` collapsing `some none` to an absent argument, exactly
as keyword passing does) and the collection is persisted. -/
def update_task (m : TaskManager) (task_id : String) (kwargs : UpdateKwargs)
    (now : Timestamp) : Except PyErr Bool × TaskManager :=
  match get_task m task_id with
  | none => (.ok false, m)
  | some task =>
    match convPriority kwargs.priority with
    | .error e => (.error e, m)
    | .ok priority =>
      match convStatus kwargs.status with
      | .error e => (.error e, m)
      | .ok status =>
        match convDueDate kwargs.due_date with
        | .error e => (.error e, m)
        | .ok due_date =>
          match kwargs.extra with
          | n :: _ => (.error (.typeError n), m)
          | [] =>
            let task2 := task.update kwargs.title kwargs.description priority
              due_date.join status kwargs.tags now
            let m2 := { m with
              tasks := m.tasks.map
                (fun p => if p.1 = task_id then (p.1, task2) else p) }
            (.ok true, save_tasks m2)

/-- Model of `delete_task`: `False` when the id is absent, otherwise remove the entry
(other entries keep their order) and persist. -/
def delete_task (m : TaskManager) (task_id : String) : Bool × TaskManager :=
  if m.tasks.any (fun p => p.1 == task_id) then
    (true, save_tasks { m with tasks := m.tasks.filter (fun p => p.1 != task_id) })
  else
    (false, m)

/-- The filtering phase of `list_tasks`.  `if status:` and `if priority:` test
truthiness of the optional enum, and enum members are always truthy, so the
filter runs exactly when the argument is present; `if tag:` tests string
truthiness, so an empty-string tag (like an absent one) skips the filter. -/
def filter_tasks (m : TaskManager) (status : Option Status)
    (priority : Option Priority) (tag : Option String) : List Task :=
  let tasks := m.tasks.map Prod.snd
  let tasks := match status with
    | some s => tasks.filter (fun t => t.status == s)
    | none => tasks
  let tasks := match priority with
    | some p => tasks.filter (fun t => t.priority == p)
    | none => tasks
  match tag with
  | some s => if s = "" then tasks else tasks.filter (fun t => t.tags.contains s)
  | none => tasks

/-- The comparator induced by the sort key `t.due_date or datetime.max`: a
missing due date compares as the maximum timestamp, above every present
one (timestamps being modelled without a top element, the maximum is the
added top). -/
def dueLE (a b : Option Timestamp) : Bool :=
  match a, b with
  | _, none => true
  | none, some _ => false
  | some x, some y => decide (x ≤ y)

/-- The inner sort comparator of `list_tasks`: due date ascending. -/
def dueTaskLE (a b : Task) : Bool :=
  dueLE a.due_date b.due_date

/-- The outer sort comparator of `list_tasks`: `key=priority.value` with
`reverse=True`, i.e. the stable sort that orders priority values descending
and keeps ties in their incoming order. -/
def priTaskLE (a b : Task) : Bool :=
  decide (b.priority.value ≤ a.priority.value)

/-- Model of `list_tasks`: filter, then stable-sort by due date (missing last), then
stable-sort by priority value descending.  Python's `sorted` is a stable
sort, as is `List.mergeSort`. -/
def list_tasks (m : TaskManager) (status : Option Status)
    (priority : Option Priority) (tag : Option String) : List Task :=
  ((filter_tasks m status priority tag).mergeSort dueTaskLE).mergeSort priTaskLE

/-- The possible states of the backing file as seen by `load_tasks`: absent,
present but not decodable as JSON, or decoded, in which case the `tasks` key
(defaulted to `[]` by `data.get("tasks", [])`) holds the records. -/
inductive Medium where
  | missing
  | invalid
  | parsed (tasks : Option (List RawRecord))
deriving DecidableEq

/-- Insertion into a Python dict: an existing key keeps its position and
receives the new value; a new key is appended. -/
def dictInsert (l : List (String × Task)) (k : String) (v : Task) :
    List (String × Task) :=
  if l.any (fun p => p.1 == k) then
    l.map (fun p => if p.1 = k then (p.1, v) else p)
  else
    l ++ [(k, v)]

/-- The dict comprehension in `load_tasks`: for the record at index `i`,
evaluate the key `task_data["id"]` and then `Task.from_dict(task_data)`; the
first exception raised aborts the comprehension. -/
def buildTasks (fresh : Nat → String) (now : Timestamp) :
    List RawRecord → Nat → List (String × Task) →
    Except PyErr (List (String × Task))
  | [], _, acc => .ok acc
  | r :: rest, i, acc => do
    let key ← getItem r.id "id"
    let t ← Task.from_dict r (fresh i) now
    buildTasks fresh now rest (i + 1) (dictInsert acc key t)

/-- Model of `load_tasks`, as a function of the backing file's state: a missing file
yields the empty collection; a caught `JSONDecodeError` (undecodable file) or
`KeyError` (missing key or unrecognized enum name in a record) resets to the
empty collection; any other exception propagates out of initialization. -/
def load_tasks (medium : Medium) (fresh : Nat → String) (now : Timestamp) :
    Except PyErr (List (String × Task)) :=
  match medium with
  | .missing => .ok []
  | .invalid => .ok []
  | .parsed data =>
    match buildTasks fresh now (data.getD []) 0 [] with
    | .ok l => .ok l
    | .error (.keyError _) => .ok []
    | .error .jsonDecodeError => .ok []
    | .error e => .error e

/-- The List filter criterion as the specification words it: the AND of the
supplied (non-null) criteria — exact status match, exact priority match, and
exact, case-sensitive tag membership.  Written from the spec's words, for
comparison with `filter_tasks`. -/
def specListPred (status : Option Status) (priority : Option Priority)
    (tag : Option String) (t : Task) : Bool :=
  (match status with
    | some s => t.status == s
    | none => true) &&
  (match priority with
    | some p => t.priority == p
    | none => true) &&
  (match tag with
    | some s => t.tags.contains s
    | none => true)

/-- The filter criterion `list_tasks` actually applies: as `specListPred`,
except that a tag criterion supplied as the empty string passes every task. -/
def codeListPred (status : Option Status) (priority : Option Priority)
    (tag : Option String) (t : Task) : Bool :=
  (match status with
    | some s => t.status == s
    | none => true) &&
  (match priority with
    | some p => t.priority == p
    | none => true) &&
  (match tag with
    | some s => s == "" || t.tags.contains s
    | none => true)

/-! Concrete values used in the evaluations below. -/

/-- A sample task with a due date and timestamps in the past. -/
def exTask1 : Task :=
  { id := "x"
    title := "T"
    description := "d"
    priority := .HIGH
    due_date := some 3
    status := .IN_PROGRESS
    tags := ["a", ""]
    created_at := 5
    updated_at := 7 }

/-- A persisted record whose `due_date` string is not valid ISO-8601. -/
def badRec : RawRecord :=
  { id := some "x"
    title := some "T"
    description := some ""
    priority := some "LOW"
    due_date := some (some "not-a-date")
    status := some "NOT_STARTED"
    tags := some []
    created_at := some "0"
    updated_at := some "0" }

/-- A sample task with a due date, stored under id `"a"`. -/
def exTask3 : Task :=
  { id := "a"
    title := "t"
    description := ""
    priority := .MEDIUM
    due_date := some 5
    status := .NOT_STARTED
    tags := ["work"]
    created_at := 0
    updated_at := 0 }

/-- A manager holding exactly `exTask3`. -/
def mgr3 : TaskManager :=
  { tasks := [("a", exTask3)], writes := 0 }

/-- Keyword arguments supplying `due_date` explicitly as `None`. -/
def kwClear : UpdateKwargs := { due_date := some none }

/-- Keyword arguments supplying a recognized field and one unrecognized
field name. -/
def kwBogus : UpdateKwargs := { title := some "new", extra := ["bogus"] }

/-- C1: the round-trip law fails on the code.  Serializing `exTask1` (whose
`created_at` is `5` and `updated_at` is `7`) and deserializing the result at
time `100` succeeds but returns the task with both timestamps replaced by
`100`, because `Task.from_dict` never reads the stored `created_at` and
`updated_at` and the constructor stamps the current time; the result differs
from the original task. -/
theorem from_dict_to_dict_resets_timestamps :
    Task.from_dict (Task.to_dict exTask1) "fresh" 100
      = .ok { exTask1 with created_at := 100, updated_at := 100 }
    ∧ ({ exTask1 with created_at := 100, updated_at := 100 } : Task) ≠ exTask1 := by
  exact ⟨by decide, by decide⟩

/-- C2: corrupt-store recovery fails on the code for a malformed timestamp.
Loading a parsed backing file containing one record whose `due_date` string
is not valid ISO-8601 raises `ValueError` (which `load_tasks` does not
catch — it only catches `JSONDecodeError` and `KeyError`) instead of
resetting to the empty collection. -/
theorem load_tasks_bad_timestamp_raises :
    load_tasks (.parsed (some [badRec])) (fun _ => "u") 0
      = .error (.valueError "not-a-date") := by
  decide

/-- C3: supplying `due_date` explicitly as `None` to Update does not clear
the due date.  On a task whose due date is `5`, the update reports success,
yet the stored due date is still `5` (and, for contrast, omitting `due_date`
leaves it unchanged as well — the two calls are indistinguishable). -/
theorem update_task_null_due_not_cleared :
    (update_task mgr3 "a" kwClear 9).1 = .ok true
    ∧ (get_task (update_task mgr3 "a" kwClear 9).2 "a").map Task.due_date
        = some (some 5)
    ∧ (get_task (update_task mgr3 "a" ({} : UpdateKwargs) 9).2 "a").map Task.due_date
        = some (some 5) := by
  exact ⟨by decide, by decide, by decide⟩

/-- C4 counterexample: an unrecognized field name in the partial update is
not ignored.  With the store holding id `"a"`, an update supplying a new
title together with the unrecognized name `"bogus"` raises `TypeError`
rather than returning `True`. -/
theorem update_task_unknown_field_cex :
    (update_task mgr3 "a" kwBogus 9).1 ≠ .ok true
    ∧ update_task mgr3 "a" kwBogus 9 = (.error (.typeError "bogus"), mgr3) := by
  exact ⟨by decide, by decide⟩

/-- C4 amended: with an existing id, when the enum/date coercions of the
recognized fields succeed and an unrecognized field name `n` is present, the
keyword call raises `TypeError n`, the update is not applied, and the
manager (collection and write count) is unchanged. -/
theorem update_task_unknown_field (m : TaskManager) (task_id : String)
    (kwargs : UpdateKwargs) (now : Timestamp) (t : Task) (n : String)
    (rest : List String)
    (hget : get_task m task_id = some t)
    (hp : ∃ p, convPriority kwargs.priority = .ok p)
    (hs : ∃ q, convStatus kwargs.status = .ok q)
    (hd : ∃ d, convDueDate kwargs.due_date = .ok d)
    (hx : kwargs.extra = n :: rest) :
    update_task m task_id kwargs now = (.error (.typeError n), m) := by
  obtain ⟨p, hp⟩ := hp
  obtain ⟨q, hs⟩ := hs
  obtain ⟨d, hd⟩ := hd
  unfold update_task
  rw [hget, hp, hs, hd, hx]

/-- Witness for the amended C4 at a concrete input. -/
theorem update_task_unknown_field_witness :
    update_task mgr3 "a" kwBogus 9 = (.error (.typeError "bogus"), mgr3) :=
  update_task_unknown_field mgr3 "a" kwBogus 9 exTask3 "bogus" []
    (by decide) ⟨none, rfl⟩ ⟨none, rfl⟩ ⟨none, rfl⟩ rfl

/-- C10: a tag criterion supplied as the empty string is treated exactly as
an omitted tag criterion: `if tag:` is false for the empty string, so the
tag filter is skipped and the two calls return the same list. -/
theorem list_tasks_empty_tag (m : TaskManager) (status : Option Status)
    (priority : Option Priority) :
    list_tasks m status priority (some "") = list_tasks m status priority none := by
  rfl

/-- C6: `Get`, `Update`, `Delete` on an id that is not a key of the
collection return the not-found signal (`none`, `False`, `False`
respectively), and `Update`/`Delete` leave the manager — collection and
persistence-write count — unchanged. -/
theorem missing_id_ops (m : TaskManager) (task_id : String)
    (kwargs : UpdateKwargs) (now : Timestamp)
    (h : ∀ p ∈ m.tasks, p.1 ≠ task_id) :
    get_task m task_id = none
    ∧ update_task m task_id kwargs now = (.ok false, m)
    ∧ delete_task m task_id = (false, m) := by
  have hfind : m.tasks.find? (fun p => p.1 == task_id) = none :=
    List.find?_eq_none.mpr (fun p hp => by simpa using h p hp)
  have hget : get_task m task_id = none := by
    unfold get_task
    rw [hfind]
    rfl
  refine ⟨hget, ?_, ?_⟩
  · unfold update_task
    rw [hget]
  · have hany : m.tasks.any (fun p => p.1 == task_id) = false := by
      rw [List.any_eq_false]
      intro p hp
      simpa using h p hp
    unfold delete_task
    rw [hany]
    rfl

/-- Witness for C6 at a concrete store and an id never inserted. -/
theorem missing_id_ops_witness :
    get_task mgr3 "zzz" = none
    ∧ update_task mgr3 "zzz" ({} : UpdateKwargs) 0 = (.ok false, mgr3)
    ∧ delete_task mgr3 "zzz" = (false, mgr3) :=
  missing_id_ops mgr3 "zzz" ({} : UpdateKwargs) 0 (by decide)

/-- C7: a successful update stamps `updated_at := now` unconditionally (also
for the update that supplies no field at all), so under a monotone clock
(`now` at least the task's last `updated_at`) the new `updated_at` is at
least the prior one; `created_at` is untouched; the invariant
`created_at ≤ updated_at` is preserved by update and established with
equality by construction. -/
theorem update_timestamps (t : Task) (title description : Option String)
    (priority : Option Priority) (due_date : Option Timestamp)
    (status : Option Status) (tags : Option (List String)) (now : Timestamp)
    (hclock : t.updated_at ≤ now) :
    (t.update title description priority due_date status tags now).updated_at = now
    ∧ t.updated_at ≤ (t.update title description priority due_date status tags now).updated_at
    ∧ (t.update title description priority due_date status tags now).created_at
        = t.created_at
    ∧ (t.created_at ≤ t.updated_at →
        (t.update title description priority due_date status tags now).created_at
          ≤ (t.update title description priority due_date status tags now).updated_at)
    ∧ ∀ (ti de : String) (pr : Priority) (dd : Option Timestamp) (st : Status)
        (tg : Option (List String)) (tid : Option String) (fr : String)
        (n : Timestamp),
        (Task.init ti de pr dd st tg tid fr n).created_at
          = (Task.init ti de pr dd st tg tid fr n).updated_at :=
  ⟨rfl, hclock, rfl, fun hc => le_trans hc hclock,
    fun _ _ _ _ _ _ _ _ _ => rfl⟩

/-- Witness for C7: the no-field update on a concrete task at a later time. -/
theorem update_timestamps_witness :
    (exTask3.update none none none none none none 4).updated_at = 4
    ∧ exTask3.updated_at ≤ (exTask3.update none none none none none none 4).updated_at
    ∧ (exTask3.update none none none none none none 4).created_at = exTask3.created_at
    ∧ (exTask3.created_at ≤ exTask3.updated_at →
        (exTask3.update none none none none none none 4).created_at
          ≤ (exTask3.update none none none none none none 4).updated_at)
    ∧ ∀ (ti de : String) (pr : Priority) (dd : Option Timestamp) (st : Status)
        (tg : Option (List String)) (tid : Option String) (fr : String)
        (n : Timestamp),
        (Task.init ti de pr dd st tg tid fr n).created_at
          = (Task.init ti de pr dd st tg tid fr n).updated_at :=
  update_timestamps exTask3 none none none none none none 4 (by decide)

/-- Lookup after the in-place replacement a successful update performs: the
first entry under the given key now carries the new value. -/
theorem find?_replace (l : List (String × Task)) (k : String) (v : Task)
    (h : (l.find? (fun p => p.1 == k)).isSome) :
    (l.map (fun p => if p.1 = k then (p.1, v) else p)).find? (fun p => p.1 == k)
      = some (k, v) := by
  induction l with
  | nil => simp at h
  | cons a rest ih =>
    by_cases hk : a.1 = k
    · rw [List.map_cons, if_pos hk, List.find?_cons_of_pos _ (by simpa using hk)]
      rw [hk]
    · rw [List.map_cons, if_neg hk, List.find?_cons_of_neg _ (by simpa using hk)]
      apply ih
      rw [List.find?_cons_of_neg _ (by simpa using hk)] at h
      exact h

/-- The successful branch of `update_task`, in closed form: when the id is
present, the three coercions succeed and no unrecognized keyword is present,
the task is replaced in place by its update with the coerced values and the
collection is persisted. -/
theorem update_task_found (m : TaskManager) (task_id : String)
    (kwargs : UpdateKwargs) (now : Timestamp) (t : Task) (p : Option Priority)
    (q : Option Status) (d : Option (Option Timestamp))
    (hget : get_task m task_id = some t)
    (hp : convPriority kwargs.priority = .ok p)
    (hs : convStatus kwargs.status = .ok q)
    (hd : convDueDate kwargs.due_date = .ok d)
    (hx : kwargs.extra = []) :
    update_task m task_id kwargs now
      = (.ok true, save_tasks { m with
          tasks := m.tasks.map (fun pr =>
            if pr.1 = task_id then
              (pr.1, t.update kwargs.title kwargs.description p d.join q kwargs.tags now)
            else pr) }) := by
  unfold update_task
  rw [hget, hp, hs, hd, hx]

/-- C8: during `update_task` on an existing id, a string `priority` or
`status` is coerced to the enumeration by exact name match and a string
`due_date` is parsed; an unrecognized enum name raises `KeyError` and a
malformed date string raises `ValueError`, in each case propagating to the
caller with the manager unchanged (no update applied, no persistence write);
when the supplied strings are all recognized, the coercions succeed with the
named members / parsed timestamp and the update is applied with them. -/
theorem update_task_coercion (m : TaskManager) (task_id : String)
    (kwargs : UpdateKwargs) (now : Timestamp) (t : Task)
    (hget : get_task m task_id = some t) :
    (∀ s, kwargs.priority = some (.inr s) → Priority.ofName s = none →
      update_task m task_id kwargs now = (.error (.keyError s), m))
    ∧ (∀ s p, convPriority kwargs.priority = .ok p →
        kwargs.status = some (.inr s) → Status.ofName s = none →
        update_task m task_id kwargs now = (.error (.keyError s), m))
    ∧ (∀ s p q, convPriority kwargs.priority = .ok p →
        convStatus kwargs.status = .ok q →
        kwargs.due_date = some (some (.inr s)) → fromisoformat s = none →
        update_task m task_id kwargs now = (.error (.valueError s), m))
    ∧ (∀ s p, kwargs.priority = some (.inr s) → Priority.ofName s = some p →
        convPriority kwargs.priority = .ok (some p))
    ∧ (∀ s q, kwargs.status = some (.inr s) → Status.ofName s = some q →
        convStatus kwargs.status = .ok (some q))
    ∧ (∀ s d, kwargs.due_date = some (some (.inr s)) → fromisoformat s = some d →
        convDueDate kwargs.due_date = .ok (some (some d)))
    ∧ (∀ p q d, convPriority kwargs.priority = .ok p →
        convStatus kwargs.status = .ok q → convDueDate kwargs.due_date = .ok d →
        kwargs.extra = [] →
        (update_task m task_id kwargs now).1 = .ok true
        ∧ get_task (update_task m task_id kwargs now).2 task_id
            = some (t.update kwargs.title kwargs.description p d.join q
                kwargs.tags now)) := by
  refine ⟨?_, ?_, ?_, ?_, ?_, ?_, ?_⟩
  · intro s hpr hn
    have hp : convPriority kwargs.priority = .error (.keyError s) := by
      rw [hpr]
      simp [convPriority, hn]
    unfold update_task
    rw [hget, hp]
  · intro s p hp hst hn
    have hs : convStatus kwargs.status = .error (.keyError s) := by
      rw [hst]
      simp [convStatus, hn]
    unfold update_task
    rw [hget, hp, hs]
  · intro s p q hp hs hdd hn
    have hd : convDueDate kwargs.due_date = .error (.valueError s) := by
      rw [hdd]
      simp [convDueDate, hn]
    unfold update_task
    rw [hget, hp, hs, hd]
  · intro s p hpr hn
    rw [hpr]
    simp [convPriority, hn]
  · intro s q hst hn
    rw [hst]
    simp [convStatus, hn]
  · intro s d hdd hn
    rw [hdd]
    simp [convDueDate, hn]
  · intro p q d hp hs hd hx
    have hfind : (m.tasks.find? (fun pr => pr.1 == task_id)).isSome := by
      unfold get_task at hget
      rcases Option.map_eq_some'.mp hget with ⟨a, ha, _⟩
      rw [ha]
      rfl
    rw [update_task_found m task_id kwargs now t p q d hget hp hs hd hx]
    refine ⟨rfl, ?_⟩
    unfold get_task save_tasks
    dsimp only
    rw [find?_replace _ _ _ hfind]
    rfl

/-- Keyword arguments carrying an unrecognized priority name. -/
def kwBadPriority : UpdateKwargs := { priority := some (.inr "URGENT") }

/-- Witness for C8: on an existing id, the unrecognized priority name
`"URGENT"` makes the update raise `KeyError` and leave the store unchanged. -/
theorem update_task_coercion_witness :
    update_task mgr3 "a" kwBadPriority 9 = (.error (.keyError "URGENT"), mgr3) :=
  (update_task_coercion mgr3 "a" kwBadPriority 9 exTask3 (by decide)).1
    "URGENT" rfl (by decide)

/-- Comparator `dueLE` is reflexive. -/
theorem dueLE_refl (a : Option Timestamp) : dueLE a a := by
  cases a <;> simp [dueLE]

/-- Comparator `dueLE` is total. -/
theorem dueLE_total (a b : Option Timestamp) : dueLE a b || dueLE b a := by
  rcases a with _ | x <;> rcases b with _ | y
  · rfl
  · rfl
  · rfl
  · show (decide (x ≤ y) || decide (y ≤ x)) = true
    rcases Nat.le_total x y with h | h
    · rw [decide_eq_true h, Bool.true_or]
    · rw [decide_eq_true h, Bool.or_true]

/-- Comparator `dueLE` is transitive. -/
theorem dueLE_trans (a b c : Option Timestamp) :
    dueLE a b → dueLE b c → dueLE a c := by
  rcases a with _ | x <;> rcases b with _ | y <;> rcases c with _ | z <;>
    intro h1 h2
  · rfl
  · exact Bool.noConfusion h2
  · rfl
  · exact Bool.noConfusion h1
  · rfl
  · exact Bool.noConfusion h2
  · rfl
  · exact decide_eq_true (Nat.le_trans (of_decide_eq_true h1) (of_decide_eq_true h2))

/-- Comparator `dueTaskLE` is total. -/
theorem dueTaskLE_total (a b : Task) : dueTaskLE a b || dueTaskLE b a :=
  dueLE_total _ _

/-- Comparator `dueTaskLE` is transitive. -/
theorem dueTaskLE_trans (a b c : Task) :
    dueTaskLE a b → dueTaskLE b c → dueTaskLE a c :=
  dueLE_trans _ _ _

/-- Comparator `priTaskLE` is total. -/
theorem priTaskLE_total (a b : Task) : priTaskLE a b || priTaskLE b a := by
  simp only [priTaskLE, Bool.or_eq_true, decide_eq_true_eq]
  omega

/-- Comparator `priTaskLE` is transitive. -/
theorem priTaskLE_trans (a b c : Task) :
    priTaskLE a b → priTaskLE b c → priTaskLE a c := by
  simp only [priTaskLE, decide_eq_true_eq]
  omega

/-- The four priority values are distinct. -/
theorem Priority.value_inj {p q : Priority} (h : p.value = q.value) : p = q := by
  cases p <;> cases q <;> simp_all [Priority.value]

/-- A stable sort leaves the subsequence of elements satisfying `p`
untouched whenever any two elements satisfying `p` compare `le`. -/
theorem filter_mergeSort (le : α → α → Bool)
    (htrans : ∀ a b c : α, le a b → le b c → le a c)
    (htotal : ∀ a b : α, le a b || le b a)
    (p : α → Bool) (hmut : ∀ a b : α, p a → p b → le a b) (l : List α) :
    (l.mergeSort le).filter p = l.filter p := by
  have hpw : (l.filter p).Pairwise (fun a b => le a b) :=
    List.pairwise_of_forall_mem_list (fun a ha b hb =>
      hmut a b (List.of_mem_filter ha) (List.of_mem_filter hb))
  have hsub : List.Sublist (l.filter p) (l.mergeSort le) :=
    List.sublist_mergeSort htrans htotal hpw (List.filter_sublist l)
  have hsub2 : List.Sublist (l.filter p) ((l.mergeSort le).filter p) := by
    have h2 := hsub.filter p
    have h3 : (l.filter p).filter p = l.filter p := by
      simp [List.filter_filter]
    rwa [h3] at h2
  have hlen : ((l.mergeSort le).filter p).length = (l.filter p).length :=
    ((List.mergeSort_perm l le).filter p).length_eq
  exact (hsub2.eq_of_length hlen.symm).symm

/-- A list sorted by the priority comparator whose fibers over each priority
value are sorted by the due-date comparator is sorted lexicographically. -/
theorem pairwise_lex (L : List Task)
    (h2 : L.Pairwise (fun a b => priTaskLE a b))
    (h1 : ∀ v : Nat, (L.filter (fun t => t.priority.value == v)).Pairwise
        (fun a b => dueTaskLE a b)) :
    L.Pairwise (fun a b => priTaskLE a b
      ∧ (a.priority.value = b.priority.value → dueTaskLE a b)) := by
  induction L with
  | nil => exact List.Pairwise.nil
  | cons x xs ih =>
    obtain ⟨hx2, hxs2⟩ := List.pairwise_cons.mp h2
    refine List.Pairwise.cons ?_ (ih hxs2 ?_)
    · intro y hy
      refine ⟨hx2 y hy, ?_⟩
      intro hv
      have hfx := h1 x.priority.value
      rw [List.filter_cons_of_pos (by simp)] at hfx
      obtain ⟨hhead, _⟩ := List.pairwise_cons.mp hfx
      exact hhead y (List.mem_filter.mpr ⟨hy, by simp [hv]⟩)
    · intro v
      have hfx := h1 v
      by_cases hv : x.priority.value = v
      · rw [List.filter_cons_of_pos (by simp [hv])] at hfx
        exact hfx.tail
      · rw [List.filter_cons_of_neg (by simp [hv])] at hfx
        exact hfx

/-- C5: the list returned by `list_tasks` is a permutation of the filtered
tasks, is ordered by priority value descending with ties ordered by due date
ascending (a missing due date comparing as the maximum timestamp, hence
last), and the two-level stable sort preserves, for every fixed priority and
due date, the relative order the tasks had in the underlying collection. -/
theorem list_tasks_sorted (m : TaskManager) (status : Option Status)
    (priority : Option Priority) (tag : Option String) :
    (list_tasks m status priority tag).Perm (filter_tasks m status priority tag)
    ∧ (list_tasks m status priority tag).Pairwise (fun a b =>
        b.priority.value ≤ a.priority.value
        ∧ (a.priority = b.priority → dueLE a.due_date b.due_date))
    ∧ ∀ (p : Priority) (d : Option Timestamp),
        (list_tasks m status priority tag).filter
            (fun t => t.priority == p && t.due_date == d)
          = (filter_tasks m status priority tag).filter
            (fun t => t.priority == p && t.due_date == d) := by
  unfold list_tasks
  set l := filter_tasks m status priority tag with hldef
  refine ⟨(List.mergeSort_perm _ priTaskLE).trans (List.mergeSort_perm _ dueTaskLE),
    ?_, ?_⟩
  · have h2 : ((l.mergeSort dueTaskLE).mergeSort priTaskLE).Pairwise
        (fun a b => priTaskLE a b) :=
      List.sorted_mergeSort priTaskLE_trans priTaskLE_total _
    have h1 : ∀ v : Nat,
        (((l.mergeSort dueTaskLE).mergeSort priTaskLE).filter
          (fun t => t.priority.value == v)).Pairwise (fun a b => dueTaskLE a b) := by
      intro v
      rw [filter_mergeSort priTaskLE priTaskLE_trans priTaskLE_total
        (fun t => t.priority.value == v)
        (fun a b ha hb => by
          simp only [beq_iff_eq] at ha hb
          simp only [priTaskLE, decide_eq_true_eq, ha, hb, Nat.le_refl])
        (l.mergeSort dueTaskLE)]
      exact List.Pairwise.sublist (List.filter_sublist _)
        (List.sorted_mergeSort dueTaskLE_trans dueTaskLE_total l)
    refine (pairwise_lex _ h2 h1).imp ?_
    intro a b hab
    refine ⟨by simpa [priTaskLE] using hab.1, fun hpq => hab.2 (by rw [hpq])⟩
  · intro p d
    have e1 : ((l.mergeSort dueTaskLE).mergeSort priTaskLE).filter
          (fun t => t.priority == p && t.due_date == d)
        = (l.mergeSort dueTaskLE).filter
          (fun t => t.priority == p && t.due_date == d) :=
      filter_mergeSort priTaskLE priTaskLE_trans priTaskLE_total _
        (fun a b ha hb => by
          simp only [Bool.and_eq_true, beq_iff_eq] at ha hb
          simp only [priTaskLE, decide_eq_true_eq, ha.1, hb.1, Nat.le_refl])
        (l.mergeSort dueTaskLE)
    have e2 : (l.mergeSort dueTaskLE).filter
          (fun t => t.priority == p && t.due_date == d)
        = l.filter (fun t => t.priority == p && t.due_date == d) :=
      filter_mergeSort dueTaskLE dueTaskLE_trans dueTaskLE_total _
        (fun a b ha hb => by
          simp only [Bool.and_eq_true, beq_iff_eq] at ha hb
          simp only [dueTaskLE, ha.2, hb.2]
          exact dueLE_refl d)
        l
    exact e1.trans e2

/-- Function `filter_tasks` equals one filter by the AND of the criteria the code
applies (with an empty-string tag criterion passing every task). -/
theorem filter_tasks_eq (m : TaskManager) (status : Option Status)
    (priority : Option Priority) (tag : Option String) :
    filter_tasks m status priority tag
      = (m.tasks.map Prod.snd).filter (codeListPred status priority tag) := by
  rcases status with _ | st <;> rcases priority with _ | pr <;>
    rcases tag with _ | s <;>
    dsimp only [filter_tasks]
  · symm
    apply List.filter_eq_self.mpr
    intro t ht
    simp [codeListPred]
  · by_cases hs : s = ""
    · subst hs
      rw [if_pos rfl]
      symm
      apply List.filter_eq_self.mpr
      intro t ht
      simp [codeListPred]
    · rw [if_neg hs]
      apply List.filter_congr
      intro t ht
      simp [codeListPred, hs]
  · apply List.filter_congr
    intro t ht
    simp [codeListPred]
  · by_cases hs : s = ""
    · subst hs
      rw [if_pos rfl]
      apply List.filter_congr
      intro t ht
      simp [codeListPred]
    · rw [if_neg hs, List.filter_filter]
      apply List.filter_congr
      intro t ht
      have hb : (s == "") = false := beq_eq_false_iff_ne.mpr hs
      simp [codeListPred, hb, Bool.and_comm, Bool.and_assoc]
  · apply List.filter_congr
    intro t ht
    simp [codeListPred]
  · by_cases hs : s = ""
    · subst hs
      rw [if_pos rfl]
      apply List.filter_congr
      intro t ht
      simp [codeListPred]
    · rw [if_neg hs, List.filter_filter]
      apply List.filter_congr
      intro t ht
      have hb : (s == "") = false := beq_eq_false_iff_ne.mpr hs
      simp [codeListPred, hb, Bool.and_comm, Bool.and_assoc]
  · rw [List.filter_filter]
    apply List.filter_congr
    intro t ht
    simp [codeListPred, Bool.and_comm]
  · by_cases hs : s = ""
    · subst hs
      rw [if_pos rfl, List.filter_filter]
      apply List.filter_congr
      intro t ht
      simp [codeListPred, Bool.and_comm]
    · rw [if_neg hs, List.filter_filter, List.filter_filter]
      apply List.filter_congr
      intro t ht
      have hb : (s == "") = false := beq_eq_false_iff_ne.mpr hs
      simp [codeListPred, hb, Bool.and_comm, Bool.and_left_comm, Bool.and_assoc]

/-- C9 counterexample: with the store holding only `exTask3`, whose tag list
is `["work"]`, listing with the tag criterion supplied as the empty string
returns that task, while the specified AND of the supplied criteria (exact
membership of `""` in the tag list) selects no task: the listing is not the
specified subset. -/
theorem list_tasks_spec_filter_cex :
    ¬ (list_tasks mgr3 none none (some "")).Perm
        ((mgr3.tasks.map Prod.snd).filter (specListPred none none (some ""))) := by
  intro hp
  have h1 : list_tasks mgr3 none none (some "") = [exTask3] := by
    unfold list_tasks
    have : filter_tasks mgr3 none none (some "") = [exTask3] := by decide
    rw [this, List.mergeSort_singleton, List.mergeSort_singleton]
  have h2 : (mgr3.tasks.map Prod.snd).filter (specListPred none none (some ""))
      = [] := by decide
  rw [h1, h2] at hp
  simpa using hp.length_eq

/-- C9 amended: `list_tasks` returns exactly (a permutation of) the stored
tasks passing the AND of the supplied criteria — exact status match, exact
priority match, exact case-sensitive tag membership for a non-empty tag
string — where an omitted criterion, and likewise a tag criterion supplied
as the empty string, passes all tasks. -/
theorem list_tasks_filter (m : TaskManager) (status : Option Status)
    (priority : Option Priority) (tag : Option String) :
    (list_tasks m status priority tag).Perm
      ((m.tasks.map Prod.snd).filter (codeListPred status priority tag)) := by
  have hperm : (list_tasks m status priority tag).Perm
      (filter_tasks m status priority tag) :=
    (List.mergeSort_perm _ priTaskLE).trans (List.mergeSort_perm _ dueTaskLE)
  rw [filter_tasks_eq] at hperm
  exact hperm

end Ttt
